import Mathlib

/-!
Shallow embedding of `src/epoa_app/main.py` (EPOA application tools).

The program is a job-application bookkeeping pipeline: it reads spreadsheet
rows into `Role` records, derives per-record folder paths, fetches job
postings to PDF via an external browser, scans extracted text for
compensation keywords, and bundles applied records into a dated zip.

Python `datetime` values are modelled as a record of calendar/time fields
with lexicographic comparison; paths are modelled as strings joined with
"/" (POSIX `os.sep`); the file system is modelled as an explicit list of
(path, contents) pairs plus a set of directories; the spreadsheet is a
list of rows; external effects (browser invocation, PDF text extraction)
are parameters of the functions that use them.
-/

namespace EPOA

/-- Model of Python `datetime.datetime`: calendar and time-of-day fields.
Comparison (`datetime.__lt__`) is lexicographic on
(year, month, day, hour, minute, second, microsecond). -/
structure PyDateTime where
  year : Nat
  month : Nat
  day : Nat
  hour : Nat
  minute : Nat
  second : Nat
  microsecond : Nat
deriving DecidableEq, Repr

/-- Python `datetime.__lt__`: lexicographic field comparison. -/
def PyDateTime.lt (a b : PyDateTime) : Bool :=
  if a.year ≠ b.year then a.year < b.year
  else if a.month ≠ b.month then a.month < b.month
  else if a.day ≠ b.day then a.day < b.day
  else if a.hour ≠ b.hour then a.hour < b.hour
  else if a.minute ≠ b.minute then a.minute < b.minute
  else if a.second ≠ b.second then a.second < b.second
  else a.microsecond < b.microsecond

/-- Midnight of the same calendar day (what a date-only spreadsheet cell
coerces to when pandas converts it to a `datetime`). -/
def PyDateTime.midnight (d : PyDateTime) : PyDateTime :=
  { d with hour := 0, minute := 0, second := 0, microsecond := 0 }

/-- Left-pad a natural number's decimal representation with zeros to the
given width (the behaviour of `strftime` field formatting). -/
def padNum (width n : Nat) : String :=
  let s := toString n
  String.mk (List.replicate (width - s.length) '0') ++ s

/-- `strftime("%Y%m%d")`: zero-padded year, month, day concatenated. -/
def PyDateTime.fmtYYYYMMDD (d : PyDateTime) : String :=
  padNum 4 d.year ++ padNum 2 d.month ++ padNum 2 d.day

/-- `RoleCounter.counts`: the nested `defaultdict` mapping a date string and
a company name to the count handed out so far (default 0). -/
def RoleCounter := String → String → Nat

/-- A fresh `RoleCounter()`: every count is 0. -/
def RoleCounter.empty : RoleCounter := fun _ _ => 0

/-- `RoleCounter.next(company, date)`: format the date (or `now` when the
date is absent, Python `date or datetime.now()`) as `YYYYMMDD`, increment
the count stored under (date string, company), and return it together with
the updated state. -/
def RoleCounter.next (rc : RoleCounter) (company : String)
    (date : Option PyDateTime) (now : PyDateTime) : Nat × RoleCounter :=
  let dateStr := ((date.getD now).fmtYYYYMMDD)
  let v := rc dateStr company + 1
  (v, fun d c => if d = dateStr ∧ c = company then v else rc d c)

/-- Call `RoleCounter.next` `n` times in sequence for the same company and
date, collecting the returned values in order. -/
def RoleCounter.nextN (rc : RoleCounter) (company : String)
    (date : Option PyDateTime) (now : PyDateTime) : Nat → List Nat × RoleCounter
  | 0 => ([], rc)
  | n + 1 =>
    let (v, rc') := rc.next company date now
    let (vs, rc'') := rc'.nextN company date now n
    (v :: vs, rc'')

/-- `pathlib` path joining `a / b`, rendered as a string with the POSIX
separator (the program joins paths and later manipulates them with string
operations such as `removeprefix`). -/
def pathJoin (a b : String) : String := a ++ "/" ++ b

/-- Python `str.removeprefix(pre)`: drop `pre` from the front when it is a
prefix, otherwise return the string unchanged. -/
def removePrefixStr (s pre : String) : String :=
  if pre.data.isPrefixOf s.data then String.mk (s.data.drop pre.data.length) else s

/-- Python's `in` operator on strings: `needle` occurs as a contiguous
substring of `hay`. -/
def strContainsSub (hay needle : String) : Bool :=
  (List.range (hay.data.length + 1)).any
    (fun i => needle.data.isPrefixOf (hay.data.drop i))

/-- ASCII lowercasing of one character (`str.lower` restricted to the
ASCII range the configuration keywords and postings use). -/
def charLower (c : Char) : Char :=
  if 'A' ≤ c ∧ c ≤ 'Z' then Char.ofNat (c.toNat + 32) else c

/-- `str.lower()`. -/
def strToLower (s : String) : String := String.mk (s.data.map charLower)

/-- Split a character list at every character satisfying `p`, the
separators not kept; always returns at least one (possibly empty) piece. -/
def splitRuns (p : Char → Bool) : List Char → List (List Char)
  | [] => [[]]
  | c :: cs =>
    match splitRuns p cs with
    | [] => [[]]
    | h :: t => if p c then [] :: h :: t else (c :: h) :: t

/-- Python `str.splitlines()` restricted to "\n" separators: split on
newlines, not keeping line ends, with no trailing empty piece for a string
that ends in a newline and `[]` for the empty string. -/
def pySplitlines (s : String) : List String :=
  match s.data with
  | [] => []
  | l =>
    let pieces := splitRuns (fun c => c = '\n') l
    if l.getLast? = some '\n' then (pieces.dropLast).map String.mk
    else pieces.map String.mk

/-- `pathlib.PurePath.name`: the final path component. -/
def baseName (p : String) : String :=
  String.mk ((splitRuns (fun c => c = '/') p.data).getLastD p.data)

/-- Join character-list pieces with a hyphen between consecutive pieces. -/
def joinHyphen : List (List Char) → List Char
  | [] => []
  | [piece] => piece
  | piece :: rest => piece ++ '-' :: joinHyphen rest

/-- Model of the external `slugify` library (a black-box dependency): a
lowercase, hyphen-separated, filesystem-safe transformation — lowercase
alphanumeric characters are kept, every maximal run of other characters
becomes a single hyphen, and leading/trailing hyphens are stripped.  The
claims never depend on the particular slug of a string, only on slugging
being a deterministic function, which any faithful model provides. -/
def slugify (s : String) : String :=
  let keep : Char → Bool := fun c => c.isAlpha || c.isDigit
  let lowered := s.data.map charLower
  let pieces := (splitRuns (fun c => !keep c) lowered).filter (· ≠ [])
  String.mk (joinHyphen pieces)

/-- The configuration values `main.py` reads from `config` (the `Config`
class lives in `epoa_app/config.py`; only the fields used by `main.py` are
modelled, as read-only data loaded once at startup). -/
structure Config where
  dir : String
  resume : String
  spreadsheet : String
  spreadsheet_tab : String
  zip_prefix : String
  compensation_words : List String
deriving Repr

/-- `EPOAApp.trailing_path`: `str(path).removeprefix(str(config.dir) + os.sep)`. -/
def trailing_path (cfg : Config) (path : String) : String :=
  removePrefixStr path (cfg.dir ++ "/")

/-- One spreadsheet row, with the cells `main.py` reads.  A missing text
cell is the empty string (the code's `not row[...]` check); a missing
"Date Applied" cell is `none` (the code's `row.notna()` check). -/
structure Row where
  company : String
  rolePostingURL : String
  roleTitle : String
  dateApplied : Option PyDateTime
deriving DecidableEq, Repr

/-- The `Role` class: one job application record. -/
structure Role where
  resume : String
  company : String
  role_title : String
  role_url : String
  date_applied : Option PyDateTime
  role_num : Nat
deriving DecidableEq, Repr

/-- `Role.date_str`: `(self.date_applied or datetime.now()).strftime("%Y%m%d")`,
with the process time passed explicitly. -/
def Role.date_str (role : Role) (now : PyDateTime) : String :=
  (role.date_applied.getD now).fmtYYYYMMDD

/-- `Role.company_slug`. -/
def Role.company_slug (role : Role) : String := slugify role.company

/-- `Role.title_slug`. -/
def Role.title_slug (role : Role) : String := slugify role.role_title

/-- `Role.role_dir_name`: `f"{self.date_str}-{self.role_num}-{self.title_slug}"`. -/
def Role.role_dir_name (role : Role) (now : PyDateTime) : String :=
  role.date_str now ++ "-" ++ toString role.role_num ++ "-" ++ role.title_slug

/-- `Role.role_path`: `config.dir / self.company_slug / self.role_dir_name`. -/
def Role.role_path (cfg : Config) (role : Role) (now : PyDateTime) : String :=
  pathJoin (pathJoin cfg.dir role.company_slug) (role.role_dir_name now)

/-- `Role.posting_pdf_path`: `self.role_path / f"posting-{self.date_str}.pdf"`. -/
def Role.posting_pdf_path (cfg : Config) (role : Role) (now : PyDateTime) : String :=
  pathJoin (role.role_path cfg now) ("posting-" ++ role.date_str now ++ ".pdf")

/-- `Role.from_spreadsheet_row`. -/
def Role.from_spreadsheet_row (resume : String) (row : Row) (role_num : Nat) : Role :=
  { resume := resume
    company := row.company
    role_title := row.roleTitle
    role_url := row.rolePostingURL
    date_applied := row.dateApplied
    role_num := role_num }

/-- The loop body of `EPOAApp.spreadsheet_row_gen`, threading the
`RoleCounter` state through the rows: a row is dropped when the optional
`row_filter` rejects it, then dropped when any of the Company,
Role Posting URL or Role Title cells is empty; otherwise the counter is
advanced and a `Role` is yielded. -/
def spreadsheetRowGenAux (resume : String) (row_filter : Option (Row → Bool))
    (now : PyDateTime) : List Row → RoleCounter → List Role
  | [], _ => []
  | row :: rest, rc =>
    if (match row_filter with
        | some f => !f row
        | none => false) then
      spreadsheetRowGenAux resume row_filter now rest rc
    else if row.company = "" ∨ row.rolePostingURL = "" ∨ row.roleTitle = "" then
      spreadsheetRowGenAux resume row_filter now rest rc
    else
      let (n, rc') := rc.next row.company row.dateApplied now
      Role.from_spreadsheet_row resume row n
        :: spreadsheetRowGenAux resume row_filter now rest rc'

/-- `EPOAApp.spreadsheet_row_gen(row_filter)`: scan the spreadsheet rows in
order with a fresh `RoleCounter`. -/
def spreadsheet_row_gen (resume : String) (rows : List Row)
    (row_filter : Option (Row → Bool)) (now : PyDateTime) : List Role :=
  spreadsheetRowGenAux resume row_filter now rows RoleCounter.empty

/-- `EPOAApp.role_gen(applied)`: the spreadsheet scan filtered on the
presence of the "Date Applied" cell matching `applied`. -/
def role_gen (resume : String) (rows : List Row) (applied : Bool)
    (now : PyDateTime) : List Role :=
  spreadsheet_row_gen resume rows (some (fun r => r.dateApplied.isSome == applied)) now

/-- The skip test in `EPOAApp.zip`:
`if self.args.since_date and role.date_applied < self.args.since_date: continue`.
`None` is falsy, so no threshold keeps every role.  The `(some, none)` case
is unreachable in `zip` (Python would raise a `TypeError` comparing `None`
with a `datetime`): `zip` iterates `role_gen(applied=True)`, whose every
role has a date; the branch is rendered as "skip". -/
def zipKeep (since : Option PyDateTime) (role : Role) : Bool :=
  match since, role.date_applied with
  | none, _ => true
  | some _, none => false
  | some t, some d => !(PyDateTime.lt d t)

/-- The roles `EPOAApp.zip` writes to the archive: the applied roles of the
spreadsheet, minus those skipped by the `--since-date` test. -/
def zipIncludedRoles (resume : String) (rows : List Row)
    (since : Option PyDateTime) (now : PyDateTime) : List Role :=
  (role_gen resume rows true now).filter (zipKeep since)

/-- Look a path up in a (path, contents) file-system listing. -/
def fsLookup (files : List (String × String)) (p : String) : Option String :=
  (files.find? (fun e => e.1 = p)).map (·.2)

/-- `role.role_path.glob("**/*")`: every file-system entry strictly below
the role's folder (the model keeps only files, listed in file-system
order). -/
def globUnder (files : List (String × String)) (dirPath : String) :
    List (String × String) :=
  files.filter (fun e => (dirPath ++ "/").data.isPrefixOf e.1.data)

/-- The outcome of `EPOAApp.zip`: the process exit code (`sys.exit(1)` on
an existing destination, 0 otherwise), the file system after the call, the
archive entries written (as archive-name/contents pairs, in write order)
when an archive was created, and the reported role count. -/
structure ZipOutcome where
  exitCode : Nat
  files : List (String × String)
  archive : Option (List (String × String))
  roleCount : Nat
deriving Repr

/-- `EPOAApp.zip`: build the destination path
`config.dir / f"{config.zip_prefix}-{date_str}.zip"`; if it exists, print
an error and exit 1 without writing; otherwise create the zip, write the
spreadsheet first under its trailing path, then for every applied role
passing the `--since-date` test write every file under the role's folder
under its trailing path, counting the roles written. -/
def EPOAAppZip (cfg : Config) (resume : String) (rows : List Row)
    (since : Option PyDateTime) (now : PyDateTime)
    (files : List (String × String)) : ZipOutcome :=
  let zipPath := pathJoin cfg.dir (cfg.zip_prefix ++ "-" ++ now.fmtYYYYMMDD ++ ".zip")
  if files.any (fun e => e.1 = zipPath) then
    { exitCode := 1, files := files, archive := none, roleCount := 0 }
  else
    let included := zipIncludedRoles resume rows since now
    let entries :=
      (trailing_path cfg cfg.spreadsheet, (fsLookup files cfg.spreadsheet).getD "")
        :: included.flatMap (fun role =>
            (globUnder files (role.role_path cfg now)).map
              (fun e => (trailing_path cfg e.1, e.2)))
    { exitCode := 0
      files := files ++ [(zipPath, String.intercalate "\x00" (entries.map (·.1)))]
      archive := some entries
      roleCount := included.length }

/-- `EPOAApp.args`'s `_parse_date`: the shorthands "today"/"tod"
(case-insensitive) yield `datetime.today()` — the current instant,
including the time of day; a non-empty string is handed to
`dateutil.parser.parse` (modelled as a parameter); an empty string yields
`None`. -/
def parseDateArg (parse : String → PyDateTime) (now : PyDateTime)
    (x : String) : Option PyDateTime :=
  if strToLower x = "today" ∨ strToLower x = "tod" then some now
  else if x ≠ "" then some (parse x)
  else none

/-- One reported keyword hit: page number, matched keyword, and the text
printed between the brackets of the report line. -/
abbrev Hit := Nat × String × String

/-- `Role.text_search(page_num, text)`: for every configured keyword and
every line of `text`, report a hit when the lowercased keyword occurs in
the lowercased line.  The report printed for a hit shows the page number,
the keyword, and the whole page `text` (the loop variable `line` is not
what the `print` call interpolates). -/
def text_search (words : List String) (page_num : Nat) (text : String) :
    List Hit :=
  words.flatMap (fun word =>
    (pySplitlines text).filterMap (fun line =>
      if strContainsSub (strToLower line) (strToLower word) then
        some (page_num, word, text)
      else none))

/-- `Role.check_posting_pdf`: extract the text of every page (the extracted
texts are the model's input) and run `text_search` with 1-based page
numbers. -/
def check_posting_pdf (words : List String) (pages : List String) : List Hit :=
  pages.enum.flatMap (fun p => text_search words (p.1 + 1) p.2)

/-- `Role.url_to_pdf`'s command line: the platform browser launcher
followed by `--headless`, the URL, the compositor-stage wait flag, the
print-to-pdf destination, and the fixed 5000 ms virtual-time budget. -/
def urlToPdfCmd (isNT : Bool) (url : String) (file_name : String) :
    List String :=
  (if isNT then ["cmd.exe", "/c", "start", "/wait", "chrome"]
   else ["google-chrome"]) ++
  ["--headless", url, "--run-all-compositor-stages-before-draw",
   "--print-to-pdf=" ++ file_name, "--virtual-time-budget=5000"]

/-- `Role.url_to_pdf`: run the command once via `subprocess.run(cmd, check=True)`.
The result records the list of external invocations performed (each the
full argument list) and either success or the propagated
`CalledProcessError` carrying the non-zero exit code. -/
def url_to_pdf (isNT : Bool) (run : List String → Nat) (url : String)
    (file_name : String) : List (List String) × Except Nat Unit :=
  let cmd := urlToPdfCmd isNT url file_name
  ([cmd], if run cmd = 0 then Except.ok () else Except.error (run cmd))

/-- The file system as `Role.prep` sees it: files with contents, and the
set of directories that exist. -/
structure FS where
  filesOn : List (String × String)
  dirs : List String
deriving Repr

/-- `Path.mkdir(parents=True, exist_ok=True)` on the model: record the
directory if it is not already present (ancestor creation is not tracked;
no claim depends on intermediate directories). -/
def FS.mkdirP (fs : FS) (p : String) : FS :=
  if fs.dirs.contains p then fs else { fs with dirs := p :: fs.dirs }

/-- Does a file exist at the path? -/
def FS.fileExists (fs : FS) (p : String) : Bool :=
  (fsLookup fs.filesOn p).isSome

/-- Write a file (only ever called on paths that were just checked to be
absent). -/
def FS.writeFile (fs : FS) (p : String) (c : String) : FS :=
  { fs with filesOn := (p, c) :: fs.filesOn }

/-- `Role.prep`: make the role folder, copy the résumé into it when no file
of that name is present (`shutil.copy` fails if the source résumé is
missing), fetch the posting to PDF when no file is present at the
deterministic posting path (`fetch` models `url_to_pdf`; `none` is the
external tool failing, which propagates), then scan the PDF (read-only).
Returns the file system together with whether a copy and whether a fetch
happened. -/
def Role.prep (cfg : Config) (role : Role) (now : PyDateTime)
    (fetch : String → Option String) (fs : FS) :
    Except String (FS × Bool × Bool) :=
  let fs1 := fs.mkdirP (role.role_path cfg now)
  let roleResumePath := pathJoin (role.role_path cfg now) (baseName role.resume)
  match (if fs1.fileExists roleResumePath then Except.ok (fs1, false)
    else
      match fsLookup fs1.filesOn role.resume with
      | some c => Except.ok (fs1.writeFile roleResumePath c, true)
      | none => Except.error "resume file not found" :
      Except String (FS × Bool)) with
  | Except.error e => Except.error e
  | Except.ok (fs2, copied) =>
    match (if fs2.fileExists (role.posting_pdf_path cfg now) then
        Except.ok (fs2, false)
      else
        match fetch role.role_url with
        | some pdf =>
          Except.ok (fs2.writeFile (role.posting_pdf_path cfg now) pdf, true)
        | none => Except.error "external tool failed" :
        Except String (FS × Bool)) with
    | Except.error e => Except.error e
    | Except.ok (fs3, fetched) =>
      if fs3.fileExists (role.posting_pdf_path cfg now) then
        Except.ok (fs3, copied, fetched)
      else Except.error "posting pdf not found"

/-! ## Properties -/

/-- Auxiliary invariant for `RoleCounter.nextN`: `n` successive calls for
one (company, date) pair return the `n` integers following the stored
count, and update the stored count for exactly that pair. -/
theorem RoleCounter.nextN_spec (c : String) (d : Option PyDateTime)
    (now : PyDateTime) :
    ∀ (n : Nat) (rc : RoleCounter),
      (rc.nextN c d now n).1
        = List.range' (rc ((d.getD now).fmtYYYYMMDD) c + 1) n ∧
      ∀ d' c', (rc.nextN c d now n).2 d' c'
        = if d' = (d.getD now).fmtYYYYMMDD ∧ c' = c
          then rc d' c' + n else rc d' c' := by
  intro n
  induction n with
  | zero =>
    intro rc
    constructor
    · simp [RoleCounter.nextN]
    · intro d' c'
      by_cases h : d' = (d.getD now).fmtYYYYMMDD ∧ c' = c <;>
        simp [RoleCounter.nextN, h]
  | succ n ih =>
    intro rc
    have hstep :
        (rc.nextN c d now (n + 1))
          = ((rc.next c d now).1 :: ((rc.next c d now).2.nextN c d now n).1,
             ((rc.next c d now).2.nextN c d now n).2) := by
      simp [RoleCounter.nextN]
    obtain ⟨ihv, ihs⟩ := ih (rc.next c d now).2
    have hupd : ∀ d' c', (rc.next c d now).2 d' c'
        = if d' = (d.getD now).fmtYYYYMMDD ∧ c' = c
          then rc ((d.getD now).fmtYYYYMMDD) c + 1 else rc d' c' := by
      intro d' c'
      simp [RoleCounter.next]
    constructor
    · rw [hstep]
      simp only []
      rw [ihv, hupd]
      simp [RoleCounter.next, List.range'_succ]
    · intro d' c'
      rw [hstep]
      simp only []
      rw [ihs d' c', hupd d' c']
      by_cases h : d' = (d.getD now).fmtYYYYMMDD ∧ c' = c
      · simp [h, h.1, h.2, Nat.add_assoc, Nat.add_comm 1 n]
      · simp [h]

/-- C2: `RoleCounter.next` is deterministic and 1-based: starting from a
fresh counter, `N` successive calls for the same company and date return
`1, 2, ..., N` in order, and a first call for a different company on the
same date then returns 1. -/
theorem roleCounter_next_one_based (c c' : String) (d : Option PyDateTime)
    (now : PyDateTime) (N : Nat) (h : c' ≠ c) :
    (RoleCounter.empty.nextN c d now N).1 = List.range' 1 N ∧
    (((RoleCounter.empty.nextN c d now N).2).next c' d now).1 = 1 := by
  obtain ⟨hv, hs⟩ := RoleCounter.nextN_spec c d now N RoleCounter.empty
  refine ⟨by simpa [RoleCounter.empty] using hv, ?_⟩
  have := hs ((d.getD now).fmtYYYYMMDD) c'
  simp [RoleCounter.next, this, h, RoleCounter.empty]

/-- Witness for C2 at a concrete counter run: three calls for "acme" on
2024-01-15 return [1, 2, 3] and a first call for "bcorp" returns 1. -/
theorem roleCounter_next_one_based_witness :
    "bcorp" ≠ "acme" ∧
    ((RoleCounter.empty.nextN "acme"
        (some ⟨2024, 1, 15, 0, 0, 0, 0⟩) ⟨2024, 1, 15, 9, 0, 0, 0⟩ 3).1
      = List.range' 1 3 ∧
    (((RoleCounter.empty.nextN "acme"
        (some ⟨2024, 1, 15, 0, 0, 0, 0⟩) ⟨2024, 1, 15, 9, 0, 0, 0⟩ 3).2).next
        "bcorp" (some ⟨2024, 1, 15, 0, 0, 0, 0⟩) ⟨2024, 1, 15, 9, 0, 0, 0⟩).1 = 1) :=
  ⟨by decide,
   roleCounter_next_one_based "acme" "bcorp"
     (some ⟨2024, 1, 15, 0, 0, 0, 0⟩) ⟨2024, 1, 15, 9, 0, 0, 0⟩ 3 (by decide)⟩

/-- C3: a record's folder path is a pure function of
(company, title, dateApplied, sequenceNumber) — two roles agreeing on
those fields (whatever their résumé or URL) get the same `role_path` and
`posting_pdf_path` — and the paths have the documented shape
`evidenceRoot/companySlug/"{stamp}-{seq}-{titleSlug}"` and
`folderPath/"posting-{stamp}.pdf"`, with the current date substituted when
`date_applied` is absent. -/
theorem role_path_pure (cfg : Config) (r1 r2 : Role) (now : PyDateTime)
    (hc : r1.company = r2.company) (ht : r1.role_title = r2.role_title)
    (hd : r1.date_applied = r2.date_applied) (hn : r1.role_num = r2.role_num) :
    r1.role_path cfg now = r2.role_path cfg now ∧
    r1.posting_pdf_path cfg now = r2.posting_pdf_path cfg now ∧
    r1.role_path cfg now
      = pathJoin (pathJoin cfg.dir (slugify r1.company))
          ((r1.date_applied.getD now).fmtYYYYMMDD ++ "-"
            ++ toString r1.role_num ++ "-" ++ slugify r1.role_title) ∧
    r1.posting_pdf_path cfg now
      = pathJoin (r1.role_path cfg now)
          ("posting-" ++ (r1.date_applied.getD now).fmtYYYYMMDD ++ ".pdf") := by
  refine ⟨?_, ?_, ?_, ?_⟩ <;>
    simp [Role.role_path, Role.posting_pdf_path, Role.role_dir_name,
      Role.date_str, Role.company_slug, Role.title_slug, hc, ht, hd, hn]

/-- Witness for C3: two concrete roles differing only in résumé and URL
share their folder and posting-PDF paths, of the documented shape. -/
theorem role_path_pure_witness :
    (Role.mk "/r/a.pdf" "Acme Corp" "Backend Engineer" "https://a/1"
        (some ⟨2024, 1, 15, 0, 0, 0, 0⟩) 1).role_path
        (Config.mk "/ev" "/r/a.pdf" "/ev/apps.xlsx" "Apps" "epoa" ["salary"])
        ⟨2024, 2, 1, 12, 0, 0, 0⟩
      = (Role.mk "/r/b.pdf" "Acme Corp" "Backend Engineer" "https://b/2"
        (some ⟨2024, 1, 15, 0, 0, 0, 0⟩) 1).role_path
        (Config.mk "/ev" "/r/a.pdf" "/ev/apps.xlsx" "Apps" "epoa" ["salary"])
        ⟨2024, 2, 1, 12, 0, 0, 0⟩ :=
  (role_path_pure
    (Config.mk "/ev" "/r/a.pdf" "/ev/apps.xlsx" "Apps" "epoa" ["salary"])
    (Role.mk "/r/a.pdf" "Acme Corp" "Backend Engineer" "https://a/1"
      (some ⟨2024, 1, 15, 0, 0, 0, 0⟩) 1)
    (Role.mk "/r/b.pdf" "Acme Corp" "Backend Engineer" "https://b/2"
      (some ⟨2024, 1, 15, 0, 0, 0, 0⟩) 1)
    ⟨2024, 2, 1, 12, 0, 0, 0⟩ rfl rfl rfl rfl).1

/-- The spreadsheet scan never yields more records than it reads rows. -/
theorem spreadsheetRowGenAux_length_le (resume : String)
    (row_filter : Option (Row → Bool)) (now : PyDateTime) :
    ∀ (rows : List Row) (rc : RoleCounter),
      (spreadsheetRowGenAux resume row_filter now rows rc).length ≤ rows.length := by
  intro rows
  induction rows with
  | nil => intro rc; simp [spreadsheetRowGenAux]
  | cons row rest ih =>
    intro rc
    simp only [spreadsheetRowGenAux]
    split
    · exact Nat.le_succ_of_le (ih rc)
    · split
      · exact Nat.le_succ_of_le (ih rc)
      · simpa using ih (rc.next row.company row.dateApplied now).2

/-- Every record the spreadsheet scan yields comes from a row that passed
the optional filter and the required-field check; its fields are copied
from that row. -/
theorem mem_spreadsheetRowGenAux (resume : String)
    (row_filter : Option (Row → Bool)) (now : PyDateTime) :
    ∀ (rows : List Row) (rc : RoleCounter) (role : Role),
      role ∈ spreadsheetRowGenAux resume row_filter now rows rc →
      ∃ row ∈ rows,
        (∀ f, row_filter = some f → f row = true) ∧
        ¬(row.company = "" ∨ row.rolePostingURL = "" ∨ row.roleTitle = "") ∧
        role.company = row.company ∧ role.role_url = row.rolePostingURL ∧
        role.role_title = row.roleTitle ∧ role.date_applied = row.dateApplied := by
  intro rows
  induction rows with
  | nil => intro rc role h; simp [spreadsheetRowGenAux] at h
  | cons row rest ih =>
    intro rc role h
    simp only [spreadsheetRowGenAux] at h
    split at h
    · rename_i hf
      obtain ⟨row', hmem, hrest⟩ := ih rc role h
      exact ⟨row', List.mem_cons_of_mem _ hmem, hrest⟩
    · rename_i hf
      split at h
      · obtain ⟨row', hmem, hrest⟩ := ih rc role h
        exact ⟨row', List.mem_cons_of_mem _ hmem, hrest⟩
      · rename_i hfields
        rcases List.mem_cons.mp h with heq | hmem
        · refine ⟨row, List.mem_cons_self _ _, ?_, hfields, ?_⟩
          · intro f hf'
            subst hf'
            simp at hf
            exact hf
          · subst heq
            simp [Role.from_spreadsheet_row]
        · obtain ⟨row', hmem', hrest⟩ :=
            ih (rc.next row.company row.dateApplied now).2 role hmem
          exact ⟨row', List.mem_cons_of_mem _ hmem', hrest⟩

/-- A row with an empty required cell is skipped without touching the
counter state: the scan of any row list containing it equals the scan with
the row removed. -/
theorem spreadsheetRowGenAux_skip (resume : String)
    (row_filter : Option (Row → Bool)) (now : PyDateTime) (row : Row)
    (hbad : row.company = "" ∨ row.rolePostingURL = "" ∨ row.roleTitle = "") :
    ∀ (pre post : List Row) (rc : RoleCounter),
      spreadsheetRowGenAux resume row_filter now (pre ++ row :: post) rc
        = spreadsheetRowGenAux resume row_filter now (pre ++ post) rc := by
  intro pre
  induction pre with
  | nil =>
    intro post rc
    simp only [List.nil_append, spreadsheetRowGenAux]
    split
    · rfl
    · simp [hbad]
  | cons p pre' ih =>
    intro post rc
    simp only [List.cons_append, spreadsheetRowGenAux]
    split
    · exact ih post rc
    · split
      · exact ih post rc
      · simp only [List.append_eq]
        rw [ih post (rc.next p.company p.dateApplied now).2]

/-- C4: rows with an empty company, posting-URL, or title cell are
silently excluded from the produced record sequence: the scan yields at
most as many records as there are rows, every yielded record has all three
required fields non-empty, and removing a row with an empty required field
from the spreadsheet leaves the scan's output unchanged. -/
theorem spreadsheet_row_gen_skips_incomplete (resume : String)
    (rows : List Row) (now : PyDateTime) :
    (spreadsheet_row_gen resume rows none now).length ≤ rows.length ∧
    (∀ role ∈ spreadsheet_row_gen resume rows none now,
      role.company ≠ "" ∧ role.role_url ≠ "" ∧ role.role_title ≠ "") ∧
    (∀ (pre post : List Row) (row : Row),
      (row.company = "" ∨ row.rolePostingURL = "" ∨ row.roleTitle = "") →
      spreadsheet_row_gen resume (pre ++ row :: post) none now
        = spreadsheet_row_gen resume (pre ++ post) none now) := by
  refine ⟨spreadsheetRowGenAux_length_le resume none now rows _, ?_, ?_⟩
  · intro role hrole
    obtain ⟨row, _, _, hfields, hc, hu, ht, _⟩ :=
      mem_spreadsheetRowGenAux resume none now rows RoleCounter.empty role hrole
    push_neg at hfields
    exact ⟨hc ▸ hfields.1, hu ▸ hfields.2.1, ht ▸ hfields.2.2⟩
  · intro pre post row hbad
    exact spreadsheetRowGenAux_skip resume none now row hbad pre post _

/-- Witness for C4 at a concrete spreadsheet: a row whose title cell is
empty contributes nothing, and the surviving record has all fields
non-empty. -/
theorem spreadsheet_row_gen_skips_incomplete_witness :
    spreadsheet_row_gen "/r/a.pdf"
        ([Row.mk "Acme" "https://a/1" "Engineer" none]
          ++ Row.mk "Acme" "https://a/2" "" none :: []) none
        ⟨2024, 2, 1, 12, 0, 0, 0⟩
      = spreadsheet_row_gen "/r/a.pdf"
        ([Row.mk "Acme" "https://a/1" "Engineer" none] ++ []) none
        ⟨2024, 2, 1, 12, 0, 0, 0⟩ :=
  (spreadsheet_row_gen_skips_incomplete "/r/a.pdf"
      ([Row.mk "Acme" "https://a/1" "Engineer" none]
        ++ Row.mk "Acme" "https://a/2" "" none :: [])
      ⟨2024, 2, 1, 12, 0, 0, 0⟩).2.2
    [Row.mk "Acme" "https://a/1" "Engineer" none] []
    (Row.mk "Acme" "https://a/2" "" none) (by simp)

/-- Every record produced by `role_gen(applied=True)` has an applied date
(the scan's filter keeps exactly the rows whose "Date Applied" cell is
present). -/
theorem role_gen_applied_isSome (resume : String) (rows : List Row)
    (now : PyDateTime) (role : Role)
    (h : role ∈ role_gen resume rows true now) :
    role.date_applied.isSome = true := by
  obtain ⟨row, _, hfilt, _, _, _, _, hdate⟩ :=
    mem_spreadsheetRowGenAux resume
      (some (fun r => r.dateApplied.isSome == true)) now rows
      RoleCounter.empty role h
  have := hfilt _ rfl
  simp at this
  simp [hdate, this]

/-- C5: in zip mode a record is included iff it has an applied date that
is not before the `--since-date` threshold (inclusive at equality, because
the skip test is a strict `<`); records with no applied date never reach
the zip loop; and with no threshold every applied record is included. -/
theorem zip_since_date_filter (resume : String) (rows : List Row)
    (since : Option PyDateTime) (now : PyDateTime) :
    (∀ role, role ∈ zipIncludedRoles resume rows since now ↔
      role ∈ role_gen resume rows true now ∧
      ∃ d, role.date_applied = some d ∧
        ∀ t, since = some t → PyDateTime.lt d t = false) ∧
    (∀ role ∈ role_gen resume rows true now, role.date_applied.isSome = true) ∧
    (∀ d, PyDateTime.lt d d = false) ∧
    zipIncludedRoles resume rows none now = role_gen resume rows true now := by
  refine ⟨?_, fun role h => role_gen_applied_isSome resume rows now role h,
    ?_, ?_⟩
  · intro role
    rw [zipIncludedRoles, List.mem_filter]
    constructor
    · rintro ⟨hmem, hkeep⟩
      refine ⟨hmem, ?_⟩
      obtain ⟨d, hd⟩ := Option.isSome_iff_exists.mp
        (role_gen_applied_isSome resume rows now role hmem)
      refine ⟨d, hd, ?_⟩
      intro t ht
      subst ht
      simpa [zipKeep, hd] using hkeep
    · rintro ⟨hmem, d, hd, hlt⟩
      refine ⟨hmem, ?_⟩
      cases since with
      | none => simp [zipKeep]
      | some t => simp [zipKeep, hd, hlt t rfl]
  · intro d
    simp [PyDateTime.lt]
  · rw [zipIncludedRoles]
    apply List.filter_eq_self.mpr
    intro role _
    simp [zipKeep]

/-- Witness for C5: a record applied on 2024-01-15 is included by
`--since-date 2024-01-01`. -/
theorem zip_since_date_filter_witness :
    Role.mk "/r/a.pdf" "Acme" "Engineer" "https://a/1"
        (some ⟨2024, 1, 15, 0, 0, 0, 0⟩) 1
      ∈ zipIncludedRoles "/r/a.pdf"
          [Row.mk "Acme" "https://a/1" "Engineer" (some ⟨2024, 1, 15, 0, 0, 0, 0⟩)]
          (some ⟨2024, 1, 1, 0, 0, 0, 0⟩) ⟨2024, 2, 1, 12, 0, 0, 0⟩ :=
  ((zip_since_date_filter "/r/a.pdf"
      [Row.mk "Acme" "https://a/1" "Engineer" (some ⟨2024, 1, 15, 0, 0, 0, 0⟩)]
      (some ⟨2024, 1, 1, 0, 0, 0, 0⟩) ⟨2024, 2, 1, 12, 0, 0, 0⟩).1 _).mpr
    ⟨by decide, ⟨2024, 1, 15, 0, 0, 0, 0⟩, rfl, by
      intro t ht
      injection ht with h
      subst h
      decide⟩

/-- C1: when a file already exists at the destination zip path
`config.dir / f"{zip_prefix}-{YYYYMMDD}.zip"`, zip mode exits with status 1
and performs no writes: the file system is returned unchanged (so every
pre-existing file keeps its contents) and no archive entries are created. -/
theorem zip_exists_no_write (cfg : Config) (resume : String) (rows : List Row)
    (since : Option PyDateTime) (now : PyDateTime)
    (files : List (String × String)) (c : String)
    (h : (pathJoin cfg.dir (cfg.zip_prefix ++ "-" ++ now.fmtYYYYMMDD ++ ".zip"), c)
          ∈ files) :
    EPOAAppZip cfg resume rows since now files
      = { exitCode := 1, files := files, archive := none, roleCount := 0 } := by
  have hany : files.any
      (fun e => e.1
        = pathJoin cfg.dir (cfg.zip_prefix ++ "-" ++ now.fmtYYYYMMDD ++ ".zip"))
      = true := by
    rw [List.any_eq_true]
    exact ⟨_, h, by simp⟩
  simp [EPOAAppZip, hany]

/-- Witness for C1: with a file already at `/ev/epoa-20240201.zip`, zip
mode returns exit code 1, the untouched file system, and no archive. -/
theorem zip_exists_no_write_witness :
    EPOAAppZip (Config.mk "/ev" "/r/a.pdf" "/ev/apps.xlsx" "Apps" "epoa" ["salary"])
        "/r/a.pdf" [] none ⟨2024, 2, 1, 12, 0, 0, 0⟩
        [("/ev/epoa-20240201.zip", "old-bytes")]
      = { exitCode := 1, files := [("/ev/epoa-20240201.zip", "old-bytes")],
          archive := none, roleCount := 0 } :=
  zip_exists_no_write
    (Config.mk "/ev" "/r/a.pdf" "/ev/apps.xlsx" "Apps" "epoa" ["salary"])
    "/r/a.pdf" [] none ⟨2024, 2, 1, 12, 0, 0, 0⟩
    [("/ev/epoa-20240201.zip", "old-bytes")] "old-bytes" (by decide)

/-- Re-joining the evidence root onto a trailing path recovers the
original path, whenever the original lay under the evidence root. -/
theorem pathJoin_trailing (cfg : Config) (p : String)
    (h : (cfg.dir ++ "/").data.isPrefixOf p.data = true) :
    pathJoin cfg.dir (trailing_path cfg p) = p := by
  have hpre := List.isPrefixOf_iff_prefix.mp h
  unfold pathJoin trailing_path removePrefixStr
  rw [if_pos h]
  apply String.ext
  rw [String.data_append]
  exact List.prefix_iff_eq_append.mp hpre

/-- Every role folder lies under the evidence root. -/
theorem rolePath_under_dir (cfg : Config) (role : Role) (now : PyDateTime) :
    (cfg.dir ++ "/").data.isPrefixOf ((role.role_path cfg now ++ "/")).data
      = true := by
  rw [List.isPrefixOf_iff_prefix]
  have hsplit : role.role_path cfg now ++ "/"
      = (cfg.dir ++ "/")
        ++ (role.company_slug ++ ("/" ++ (role.role_dir_name now ++ "/"))) := by
    simp [Role.role_path, pathJoin, String.append_assoc]
  rw [hsplit, String.data_append]
  exact List.prefix_append _ _

/-- C7: when no file exists at the destination, zip mode creates the
archive `<prefix>-<today:YYYYMMDD>.zip` at the evidence-root top level; the
archive's first entry is the spreadsheet under its trailing path with its
contents, every file under an included record's folder appears under its
trailing path with its contents, every entry after the spreadsheet is an
evidence-root-relative name of a file-system source (re-joining the
evidence root recovers the source path), and the reported count is the
number of included records. -/
theorem zip_creates_archive (cfg : Config) (resume : String) (rows : List Row)
    (since : Option PyDateTime) (now : PyDateTime)
    (files : List (String × String)) (sc : String)
    (hno : ∀ c, (pathJoin cfg.dir
        (cfg.zip_prefix ++ "-" ++ now.fmtYYYYMMDD ++ ".zip"), c) ∉ files)
    (hs : fsLookup files cfg.spreadsheet = some sc) :
    ∃ L, (EPOAAppZip cfg resume rows since now files).archive = some L ∧
      (EPOAAppZip cfg resume rows since now files).exitCode = 0 ∧
      (EPOAAppZip cfg resume rows since now files).roleCount
        = (zipIncludedRoles resume rows since now).length ∧
      (EPOAAppZip cfg resume rows since now files).files.map Prod.fst
        = files.map Prod.fst
          ++ [pathJoin cfg.dir (cfg.zip_prefix ++ "-" ++ now.fmtYYYYMMDD ++ ".zip")] ∧
      L.head? = some (trailing_path cfg cfg.spreadsheet, sc) ∧
      ((cfg.dir ++ "/").data.isPrefixOf cfg.spreadsheet.data = true →
        pathJoin cfg.dir (trailing_path cfg cfg.spreadsheet) = cfg.spreadsheet) ∧
      (∀ role ∈ zipIncludedRoles resume rows since now, ∀ e ∈ files,
        ((role.role_path cfg now ++ "/")).data.isPrefixOf e.1.data = true →
        (trailing_path cfg e.1, e.2) ∈ L) ∧
      (∀ e ∈ L.tail, ∃ src ∈ files,
        e = (trailing_path cfg src.1, src.2) ∧ pathJoin cfg.dir e.1 = src.1) := by
  have hany : files.any
      (fun e => e.1
        = pathJoin cfg.dir (cfg.zip_prefix ++ "-" ++ now.fmtYYYYMMDD ++ ".zip"))
      = false := by
    rw [List.any_eq_false]
    intro e he hcontra
    exact hno e.2 (by
      have : e.1 = pathJoin cfg.dir
          (cfg.zip_prefix ++ "-" ++ now.fmtYYYYMMDD ++ ".zip") :=
        of_decide_eq_true hcontra
      simpa [← this] using he)
  have hz : EPOAAppZip cfg resume rows since now files =
      { exitCode := 0
        files := files
          ++ [(pathJoin cfg.dir (cfg.zip_prefix ++ "-" ++ now.fmtYYYYMMDD ++ ".zip"),
               String.intercalate "\x00"
                 (((trailing_path cfg cfg.spreadsheet,
                     (fsLookup files cfg.spreadsheet).getD "")
                   :: (zipIncludedRoles resume rows since now).flatMap (fun role =>
                       (globUnder files (role.role_path cfg now)).map
                         (fun e => (trailing_path cfg e.1, e.2)))).map (·.1)))]
        archive := some
          ((trailing_path cfg cfg.spreadsheet,
             (fsLookup files cfg.spreadsheet).getD "")
            :: (zipIncludedRoles resume rows since now).flatMap (fun role =>
                (globUnder files (role.role_path cfg now)).map
                  (fun e => (trailing_path cfg e.1, e.2))))
        roleCount := (zipIncludedRoles resume rows since now).length } := by
    unfold EPOAAppZip
    rw [if_neg (by simp [hany])]
  refine ⟨_, by rw [hz], by rw [hz], by rw [hz], by rw [hz]; simp, ?_, ?_, ?_, ?_⟩
  · simp [hs]
  · intro h
    exact pathJoin_trailing cfg cfg.spreadsheet h
  · intro role hrole e he hpref
    exact List.mem_cons_of_mem _ (List.mem_flatMap.mpr
      ⟨role, hrole, List.mem_map.mpr
        ⟨e, List.mem_filter.mpr ⟨he, hpref⟩, rfl⟩⟩)
  · intro e he
    simp only [List.tail_cons] at he
    obtain ⟨role, hrole, hmap⟩ := List.mem_flatMap.mp he
    obtain ⟨src, hsrc, heq⟩ := List.mem_map.mp hmap
    obtain ⟨hsrcmem, hsrcpref⟩ := List.mem_filter.mp hsrc
    refine ⟨src, hsrcmem, heq.symm, ?_⟩
    have hdirpref : (cfg.dir ++ "/").data.isPrefixOf src.1.data = true := by
      rw [List.isPrefixOf_iff_prefix]
      exact (List.isPrefixOf_iff_prefix.mp
          (rolePath_under_dir cfg role now)).trans
        (List.isPrefixOf_iff_prefix.mp hsrcpref)
    rw [← heq]
    exact pathJoin_trailing cfg src.1 hdirpref

/-- Witness for C7: on a file system holding the spreadsheet and one
applied record's posting PDF, with no zip present, zip mode exits 0 and
reports one record. -/
theorem zip_creates_archive_witness :
    (EPOAAppZip
        (Config.mk "/ev" "/r/a.pdf" "/ev/apps.xlsx" "Apps" "epoa" ["salary"])
        "/r/a.pdf"
        [Row.mk "Acme" "https://a/1" "Engineer" (some ⟨2024, 1, 15, 0, 0, 0, 0⟩)]
        none ⟨2024, 2, 1, 12, 0, 0, 0⟩
        [("/ev/apps.xlsx", "xlsx-bytes"),
         ("/ev/acme/20240115-1-engineer/posting-20240115.pdf", "pdf-bytes")]).exitCode
      = 0 ∧
    (EPOAAppZip
        (Config.mk "/ev" "/r/a.pdf" "/ev/apps.xlsx" "Apps" "epoa" ["salary"])
        "/r/a.pdf"
        [Row.mk "Acme" "https://a/1" "Engineer" (some ⟨2024, 1, 15, 0, 0, 0, 0⟩)]
        none ⟨2024, 2, 1, 12, 0, 0, 0⟩
        [("/ev/apps.xlsx", "xlsx-bytes"),
         ("/ev/acme/20240115-1-engineer/posting-20240115.pdf", "pdf-bytes")]).roleCount
      = 1 := by
  obtain ⟨L, _, h2, h3, _⟩ := zip_creates_archive
    (Config.mk "/ev" "/r/a.pdf" "/ev/apps.xlsx" "Apps" "epoa" ["salary"])
    "/r/a.pdf"
    [Row.mk "Acme" "https://a/1" "Engineer" (some ⟨2024, 1, 15, 0, 0, 0, 0⟩)]
    none ⟨2024, 2, 1, 12, 0, 0, 0⟩
    [("/ev/apps.xlsx", "xlsx-bytes"),
     ("/ev/acme/20240115-1-engineer/posting-20240115.pdf", "pdf-bytes")]
    "xlsx-bytes"
    (by
      intro c h
      have hzp : pathJoin "/ev"
          ("epoa" ++ "-" ++ (PyDateTime.mk 2024 2 1 12 0 0 0).fmtYYYYMMDD ++ ".zip")
          = "/ev/epoa-20240201.zip" := by decide
      rw [hzp] at h
      simp only [List.mem_cons, List.not_mem_nil, or_false] at h
      rcases h with h | h <;> injection h with h1 h2 <;>
        exact absurd h1 (by decide))
    (by decide)
  exact ⟨h2, h3.trans (by decide)⟩

/-- `mkdirP` never touches files. -/
theorem FS.mkdirP_filesOn (fs : FS) (p : String) :
    (fs.mkdirP p).filesOn = fs.filesOn := by
  unfold FS.mkdirP
  split <;> rfl

/-- After `mkdirP p` the directory `p` exists. -/
theorem FS.mkdirP_contains (fs : FS) (p : String) :
    ((fs.mkdirP p).dirs.contains p) = true := by
  unfold FS.mkdirP
  split
  · assumption
  · simp

/-- `mkdirP` on an existing directory is a no-op (`exist_ok=True`). -/
theorem FS.mkdirP_of_contains (fs : FS) (p : String)
    (h : fs.dirs.contains p = true) : fs.mkdirP p = fs := by
  unfold FS.mkdirP
  rw [if_pos h]

/-- `writeFile` never touches directories. -/
theorem FS.writeFile_dirs (fs : FS) (p c : String) :
    (fs.writeFile p c).dirs = fs.dirs := rfl

/-- A just-written file exists. -/
theorem FS.fileExists_writeFile_self (fs : FS) (p c : String) :
    (fs.writeFile p c).fileExists p = true := by
  simp [FS.fileExists, FS.writeFile, fsLookup]

/-- Writing one file does not delete another. -/
theorem FS.fileExists_writeFile_mono (fs : FS) (p c q : String)
    (h : fs.fileExists q = true) :
    (fs.writeFile p c).fileExists q = true := by
  by_cases hpq : p = q
  · subst hpq
    exact fs.fileExists_writeFile_self p c
  · simpa [FS.fileExists, FS.writeFile, fsLookup, List.find?_cons, hpq] using h

/-- C8: `Role.prep` is idempotent with respect to existing artifacts: if a
run succeeds, producing file system `fs'`, then a second run from `fs'`
performs no résumé copy and no posting fetch and leaves the file system
exactly `fs'`. -/
theorem prep_idempotent (cfg : Config) (role : Role) (now : PyDateTime)
    (fetch : String → Option String) (fs fs' : FS) (copied fetched : Bool)
    (h : Role.prep cfg role now fetch fs = Except.ok (fs', copied, fetched)) :
    Role.prep cfg role now fetch fs' = Except.ok (fs', false, false) := by
  have main : fs'.dirs.contains (role.role_path cfg now) = true ∧
      fs'.fileExists (pathJoin (role.role_path cfg now) (baseName role.resume))
        = true ∧
      fs'.fileExists (role.posting_pdf_path cfg now) = true := by
    simp only [Role.prep] at h
    split at h
    next => exact absurd h (by simp)
    next fs2 copied2 heq =>
      split at h
      next => exact absurd h (by simp)
      next fs3 fetched2 heq2 =>
        split at h
        next hpdf =>
          injection h with h'
          injection h' with hfs hrest
          subst hfs
          have hfs2 : fs2.fileExists
              (pathJoin (role.role_path cfg now) (baseName role.resume)) = true ∧
              fs2.dirs.contains (role.role_path cfg now) = true := by
            split at heq
            next h1 =>
              injection heq with heq'
              injection heq' with hfs2 hc2
              subst hfs2
              exact ⟨h1, fs.mkdirP_contains _⟩
            next h1 =>
              split at heq
              next c hc =>
                injection heq with heq'
                injection heq' with hfs2 hc2
                subst hfs2
                refine ⟨FS.fileExists_writeFile_self _ _ _, ?_⟩
                rw [FS.writeFile_dirs]
                exact fs.mkdirP_contains _
              next => exact absurd heq (by simp)
          have hfs3 : fs3.fileExists
              (pathJoin (role.role_path cfg now) (baseName role.resume)) = true ∧
              fs3.dirs.contains (role.role_path cfg now) = true := by
            split at heq2
            next h2 =>
              injection heq2 with heq2'
              injection heq2' with hfs3 hf3
              subst hfs3
              exact hfs2
            next h2 =>
              split at heq2
              next pdf hf =>
                injection heq2 with heq2'
                injection heq2' with hfs3 hf3
                subst hfs3
                refine ⟨FS.fileExists_writeFile_mono _ _ _ _ hfs2.1, ?_⟩
                rw [FS.writeFile_dirs]
                exact hfs2.2
              next => exact absurd heq2 (by simp)
          exact ⟨hfs3.2, hfs3.1, hpdf⟩
        next hpdf => exact absurd h (by simp)
  obtain ⟨hdir, hrrp, hpdf⟩ := main
  simp [Role.prep, FS.mkdirP_of_contains _ _ hdir, hrrp, hpdf]

/-- Witness for C8: a successful first `prep` run on a file system holding
only the résumé, followed by a second run, which copies and fetches
nothing. -/
theorem prep_idempotent_witness :
    Role.prep (Config.mk "/ev" "/r/a.pdf" "/ev/apps.xlsx" "Apps" "epoa" ["salary"])
        (Role.mk "/r/a.pdf" "Acme" "Engineer" "https://a/1" none 1)
        ⟨2024, 2, 1, 12, 0, 0, 0⟩ (fun _ => some "pdf-bytes")
        (FS.mk [("/r/a.pdf", "resume-bytes")] [])
      = Except.ok
          (FS.mk
            [("/ev/acme/20240201-1-engineer/posting-20240201.pdf", "pdf-bytes"),
             ("/ev/acme/20240201-1-engineer/a.pdf", "resume-bytes"),
             ("/r/a.pdf", "resume-bytes")]
            ["/ev/acme/20240201-1-engineer"],
           true, true) ∧
    Role.prep (Config.mk "/ev" "/r/a.pdf" "/ev/apps.xlsx" "Apps" "epoa" ["salary"])
        (Role.mk "/r/a.pdf" "Acme" "Engineer" "https://a/1" none 1)
        ⟨2024, 2, 1, 12, 0, 0, 0⟩ (fun _ => some "pdf-bytes")
        (FS.mk
          [("/ev/acme/20240201-1-engineer/posting-20240201.pdf", "pdf-bytes"),
           ("/ev/acme/20240201-1-engineer/a.pdf", "resume-bytes"),
           ("/r/a.pdf", "resume-bytes")]
          ["/ev/acme/20240201-1-engineer"])
      = Except.ok
          (FS.mk
            [("/ev/acme/20240201-1-engineer/posting-20240201.pdf", "pdf-bytes"),
             ("/ev/acme/20240201-1-engineer/a.pdf", "resume-bytes"),
             ("/r/a.pdf", "resume-bytes")]
            ["/ev/acme/20240201-1-engineer"],
           false, false) := by
  have h1 : Role.prep
      (Config.mk "/ev" "/r/a.pdf" "/ev/apps.xlsx" "Apps" "epoa" ["salary"])
      (Role.mk "/r/a.pdf" "Acme" "Engineer" "https://a/1" none 1)
      ⟨2024, 2, 1, 12, 0, 0, 0⟩ (fun _ => some "pdf-bytes")
      (FS.mk [("/r/a.pdf", "resume-bytes")] [])
    = Except.ok
        (FS.mk
          [("/ev/acme/20240201-1-engineer/posting-20240201.pdf", "pdf-bytes"),
           ("/ev/acme/20240201-1-engineer/a.pdf", "resume-bytes"),
           ("/r/a.pdf", "resume-bytes")]
          ["/ev/acme/20240201-1-engineer"],
         true, true) := by rfl
  exact ⟨h1, prep_idempotent _ _ _ _ _ _ _ _ h1⟩

/-- C9: fetching a posting to PDF invokes the external browser process
exactly once, with a command line carrying the fixed 5000 ms virtual-time
budget and the compositor-stage wait flag, and the call succeeds iff the
process exits 0 — a non-zero exit propagates as the error, with no retry. -/
theorem url_to_pdf_once_and_flags (isNT : Bool) (run : List String → Nat)
    (url file_name : String) :
    (url_to_pdf isNT run url file_name).1 = [urlToPdfCmd isNT url file_name] ∧
    "--virtual-time-budget=5000" ∈ urlToPdfCmd isNT url file_name ∧
    "--run-all-compositor-stages-before-draw" ∈ urlToPdfCmd isNT url file_name ∧
    ((url_to_pdf isNT run url file_name).2 = Except.ok ()
      ↔ run (urlToPdfCmd isNT url file_name) = 0) ∧
    (∀ code, (url_to_pdf isNT run url file_name).2 = Except.error code
      ↔ (run (urlToPdfCmd isNT url file_name) = code ∧ code ≠ 0)) := by
  refine ⟨rfl, ?_, ?_, ?_, ?_⟩
  · cases isNT <;> simp [urlToPdfCmd]
  · cases isNT <;> simp [urlToPdfCmd]
  · unfold url_to_pdf
    by_cases h : run (urlToPdfCmd isNT url file_name) = 0 <;> simp [h]
  · intro code
    unfold url_to_pdf
    by_cases h : run (urlToPdfCmd isNT url file_name) = 0 <;> simp [h]
    · intro hc
      exact hc.symm
    · intro hc
      rw [← hc]
      exact h

/-- C10: `--since-date today` (and `tod`) parses to the current instant,
time of day included; the zip filter compares full datetimes, so an
applied record whose spreadsheet cell coerced to midnight of the current
day is excluded whenever the run happens strictly after midnight. -/
theorem since_today_excludes_midnight (parse : String → PyDateTime)
    (now : PyDateTime) (role : Role)
    (hd : role.date_applied = some now.midnight)
    (hm : PyDateTime.lt now.midnight now = true) :
    parseDateArg parse now "today" = some now ∧
    parseDateArg parse now "tod" = some now ∧
    zipKeep (parseDateArg parse now "today") role = false ∧
    (∀ resume rows,
      role ∉ zipIncludedRoles resume rows (parseDateArg parse now "today") now) := by
  have htoday : parseDateArg parse now "today" = some now := by
    simp [parseDateArg, strToLower, charLower]
  have htod : parseDateArg parse now "tod" = some now := by
    simp [parseDateArg, strToLower, charLower]
  have hkeep : zipKeep (parseDateArg parse now "today") role = false := by
    rw [htoday]
    simp [zipKeep, hd, hm]
  refine ⟨htoday, htod, hkeep, ?_⟩
  intro resume rows hmem
  rw [zipIncludedRoles, List.mem_filter] at hmem
  rw [hkeep] at hmem
  exact absurd hmem.2 (by simp)

/-- Witness for C10: running at 08:30 on 2024-02-01, a record applied
"2024-02-01" (midnight) is excluded by `--since-date today`. -/
theorem since_today_excludes_midnight_witness :
    (Role.mk "/r/a.pdf" "Acme" "Engineer" "https://a/1"
        (some (PyDateTime.mk 2024 2 1 8 30 0 0).midnight) 1).date_applied
      = some (PyDateTime.mk 2024 2 1 8 30 0 0).midnight ∧
    PyDateTime.lt (PyDateTime.mk 2024 2 1 8 30 0 0).midnight
        (PyDateTime.mk 2024 2 1 8 30 0 0) = true ∧
    zipKeep (parseDateArg (fun _ => PyDateTime.mk 2024 2 1 8 30 0 0)
        (PyDateTime.mk 2024 2 1 8 30 0 0) "today")
      (Role.mk "/r/a.pdf" "Acme" "Engineer" "https://a/1"
        (some (PyDateTime.mk 2024 2 1 8 30 0 0).midnight) 1) = false :=
  ⟨by decide, by decide,
   (since_today_excludes_midnight (fun _ => PyDateTime.mk 2024 2 1 8 30 0 0)
      (PyDateTime.mk 2024 2 1 8 30 0 0)
      (Role.mk "/r/a.pdf" "Acme" "Engineer" "https://a/1"
        (some (PyDateTime.mk 2024 2 1 8 30 0 0).midnight) 1)
      rfl (by decide)).2.2.1⟩

/-- `filterMap` with a constant-valued `if` is `filter` then a constant
`map`. -/
theorem filterMap_if_const {α β : Type} (p : α → Bool) (k : β) (l : List α) :
    l.filterMap (fun a => if p a then some k else none)
      = (l.filter p).map (fun _ => k) := by
  induction l with
  | nil => simp
  | cons a l ih => by_cases h : p a <;> simp [h, ih]

/-- Every reported hit carries the page number, a configured keyword, the
whole page text, and corresponds to some matching line. -/
theorem mem_text_search (words : List String) (page : Nat) (text : String)
    (h : Hit) (hmem : h ∈ text_search words page text) :
    h.1 = page ∧ h.2.1 ∈ words ∧ h.2.2 = text ∧
    ∃ l ∈ pySplitlines text,
      strContainsSub (strToLower l) (strToLower h.2.1) = true := by
  obtain ⟨w, hw, hmem'⟩ := List.mem_flatMap.mp hmem
  rw [filterMap_if_const] at hmem'
  obtain ⟨l, hl, heq⟩ := List.mem_map.mp hmem'
  obtain ⟨hl1, hl2⟩ := List.mem_filter.mp hl
  subst heq
  exact ⟨rfl, hw, rfl, l, hl1, hl2⟩

/-- Per-keyword hit count: with distinct configured keywords, the number of
hits reported for a keyword equals the number of lines of the page text
containing it case-insensitively — exactly one hit per matching line. -/
theorem text_search_count (page : Nat) (text : String) :
    ∀ (words : List String), words.Nodup → ∀ w ∈ words,
      ((text_search words page text).filter (fun h => h.2.1 = w)).length
        = ((pySplitlines text).filter
            (fun l => strContainsSub (strToLower l) (strToLower w))).length := by
  intro words
  induction words with
  | nil => intro _ w hw; simp at hw
  | cons w' ws ih =>
    intro hnd w hw
    obtain ⟨hw'_not, hnd'⟩ := List.nodup_cons.mp hnd
    have hsplit : text_search (w' :: ws) page text
        = (pySplitlines text).filterMap (fun line =>
            if strContainsSub (strToLower line) (strToLower w') then
              some (page, w', text) else none)
          ++ text_search ws page text := by
      simp [text_search]
    rw [hsplit, List.filter_append, List.length_append, filterMap_if_const]
    rcases List.mem_cons.mp hw with rfl | hwmem
    · have h1 : (((pySplitlines text).filter
            (fun l => strContainsSub (strToLower l) (strToLower w))).map
            (fun _ => (page, w, text))).filter
            (fun h => h.2.1 = w)
          = ((pySplitlines text).filter
            (fun l => strContainsSub (strToLower l) (strToLower w))).map
            (fun _ => (page, w, text)) := by
        apply List.filter_eq_self.mpr
        intro a ha
        obtain ⟨l, hl, rfl⟩ := List.mem_map.mp ha
        simp
      have h2 : (text_search ws page text).filter (fun h => h.2.1 = w) = [] := by
        apply List.filter_eq_nil_iff.mpr
        intro a ha
        have hkw := (mem_text_search ws page text a ha).2.1
        simp only [decide_eq_true_eq]
        intro hcontra
        rw [hcontra] at hkw
        exact hw'_not hkw
      rw [h1, h2, List.length_map]
      simp
    · have hne : w ≠ w' := fun hcontra => hw'_not (hcontra ▸ hwmem)
      have h1 : (((pySplitlines text).filter
            (fun l => strContainsSub (strToLower l) (strToLower w'))).map
            (fun _ => (page, w', text))).filter
            (fun h => h.2.1 = w) = [] := by
        apply List.filter_eq_nil_iff.mpr
        intro a ha
        obtain ⟨l, hl, rfl⟩ := List.mem_map.mp ha
        simp [hne.symm]
      rw [h1]
      simp [ih hnd' w hwmem]

/-- Counterexample to C6 as stated: on a two-line page where only the
second line contains the keyword, the single reported hit carries the
whole page text, not the matched line — the triple with the matched line
is never produced. -/
theorem text_search_line_counterexample :
    text_search ["salary"] 1 "hello\nsalary info"
      = [(1, "salary", "hello\nsalary info")] ∧
    (1, "salary", "salary info") ∉ text_search ["salary"] 1 "hello\nsalary info" := by
  decide

/-- C6 (amended): for every page, every configured keyword (the keywords
are distinct, coming from a set), and every line of that page's text
containing the keyword case-insensitively, exactly one hit is reported —
consisting of the page number, the matched keyword, and the whole page
text (not the matched line); distinct keywords matching the same line
yield separate hits (each hit names its keyword), an empty result is
valid, and pages are numbered from 1. -/
theorem text_search_reports (words : List String) (page : Nat) (text : String)
    (hnd : words.Nodup) :
    (∀ w ∈ words,
      ((text_search words page text).filter (fun h => h.2.1 = w)).length
        = ((pySplitlines text).filter
            (fun l => strContainsSub (strToLower l) (strToLower w))).length) ∧
    (∀ h ∈ text_search words page text,
      h.1 = page ∧ h.2.1 ∈ words ∧ h.2.2 = text ∧
      ∃ l ∈ pySplitlines text,
        strContainsSub (strToLower l) (strToLower h.2.1) = true) ∧
    ((∀ w ∈ words, ∀ l ∈ pySplitlines text,
        strContainsSub (strToLower l) (strToLower w) = false) →
      text_search words page text = []) ∧
    (∀ (pages : List String) (hit : Hit),
      hit ∈ check_posting_pdf words pages ↔
        ∃ i, ∃ hi : i < pages.length,
          hit ∈ text_search words (i + 1) (pages.get ⟨i, hi⟩)) := by
  refine ⟨text_search_count page text words hnd,
    fun h hm => mem_text_search words page text h hm, ?_, ?_⟩
  · intro hno
    unfold text_search
    induction words with
    | nil => simp
    | cons w' ws ih =>
      rw [List.flatMap_cons, filterMap_if_const]
      rw [List.filter_eq_nil_iff.mpr (fun l hl => by
        simp [hno w' (List.mem_cons_self _ _) l hl])]
      simp only [List.map_nil, List.nil_append]
      exact ih (List.Nodup.of_cons hnd)
        (fun w hw l hl => hno w (List.mem_cons_of_mem _ hw) l hl)
  · intro pages hit
    unfold check_posting_pdf
    rw [List.mem_flatMap]
    constructor
    · rintro ⟨⟨i, t⟩, henum, hhit⟩
      obtain ⟨hi, hget⟩ :=
        List.getElem?_eq_some.mp (List.mem_enum_iff_getElem?.mp henum)
      exact ⟨i, hi, by rw [List.get_eq_getElem, hget]; exact hhit⟩
    · rintro ⟨i, hi, hhit⟩
      refine ⟨(i, pages.get ⟨i, hi⟩), ?_, hhit⟩
      rw [List.mem_enum_iff_getElem?]
      exact List.getElem?_eq_some.mpr ⟨hi, rfl⟩

/-- Witness for C6 (amended): with distinct keywords "salary" and "pay",
the page "hello\nsalary info" yields exactly one "salary" hit — one per
matching line. -/
theorem text_search_reports_witness :
    (["salary", "pay"] : List String).Nodup ∧
    ((text_search ["salary", "pay"] 1 "hello\nsalary info").filter
        (fun h => h.2.1 = "salary")).length
      = ((pySplitlines "hello\nsalary info").filter
          (fun l => strContainsSub (strToLower l) (strToLower "salary"))).length :=
  ⟨by decide,
   (text_search_reports ["salary", "pay"] 1 "hello\nsalary info"
      (by decide)).1 "salary" (by decide)⟩

end EPOA
